import Mathlib

/-!
Verification of the C2S enrichment service (webhook intake, identity
resolution, cache integrity, resilience) against its natural-language
specification.  The Rust sources are shallowly embedded: pure functions
become Lean functions, database tables become explicit lists of rows,
external collaborators (HTTP services, the chrono timestamp parser, the
phonenumber validator) become function parameters, and byte-level
operations work on `Nat` lists with explicit bounds.
-/

namespace C2S

/-! ## UTF-8 byte model

Rust strings are UTF-8 byte sequences (`str::as_bytes`, `str::len`).
Lean strings are lists of unicode scalar values, so we model the byte
view with an explicit UTF-8 encoder.  Rust `char` and Lean `Char` both
range over unicode scalar values (surrogates excluded), so the encoder
is total and injective. -/

/-- UTF-8 encoding of one unicode scalar value, as a list of byte values. -/
def utf8EncodeChar (c : Char) : List Nat :=
  let n := c.toNat
  if n < 0x80 then [n]
  else if n < 0x800 then [0xC0 + n / 64, 0x80 + n % 64]
  else if n < 0x10000 then [0xE0 + n / 4096, 0x80 + n / 64 % 64, 0x80 + n % 64]
  else [0xF0 + n / 262144, 0x80 + n / 4096 % 64, 0x80 + n / 64 % 64, 0x80 + n % 64]

/-- The UTF-8 byte sequence of a string (Rust `str::as_bytes`). -/
def utf8Bytes (s : String) : List Nat :=
  s.data.flatMap utf8EncodeChar

/-- Decoder used only to prove the encoder injective: reads one encoded
scalar off the front of a byte list.  It is a proof device (it need not
reject every ill-formed byte sequence), not an embedding of source code. -/
def utf8DecodeChar : List Nat → Option (Char × List Nat)
  | [] => none
  | b :: rest =>
    if b < 0x80 then some (Char.ofNat b, rest)
    else if b < 0xC0 then none
    else if b < 0xE0 then
      match rest with
      | b2 :: rest2 => some (Char.ofNat ((b - 0xC0) * 64 + (b2 - 0x80)), rest2)
      | _ => none
    else if b < 0xF0 then
      match rest with
      | b2 :: b3 :: rest3 =>
        some (Char.ofNat ((b - 0xE0) * 4096 + (b2 - 0x80) * 64 + (b3 - 0x80)), rest3)
      | _ => none
    else
      match rest with
      | b2 :: b3 :: b4 :: rest4 =>
        some (Char.ofNat
          ((b - 0xF0) * 262144 + (b2 - 0x80) * 4096 + (b3 - 0x80) * 64 + (b4 - 0x80)), rest4)
      | _ => none

theorem utf8DecodeChar_encode (c : Char) (rest : List Nat) :
    utf8DecodeChar (utf8EncodeChar c ++ rest) = some (c, rest) := by
  have hval := c.valid
  have heq : c.toNat = c.val.toNat := rfl
  have hlt : c.toNat < 0x110000 := by
    rcases hval with h | ⟨_, h⟩ <;> omega
  unfold utf8EncodeChar
  by_cases h1 : c.toNat < 0x80
  · simp only [h1, if_true, List.cons_append, List.nil_append, utf8DecodeChar, if_pos h1]
    rw [Char.ofNat_toNat]
  · by_cases h2 : c.toNat < 0x800
    · simp only [h1, h2, if_true, if_false, List.cons_append, List.nil_append, utf8DecodeChar]
      have hb : ¬ (0xC0 + c.toNat / 64 < 0x80) := by omega
      have hb2 : ¬ (0xC0 + c.toNat / 64 < 0xC0) := by omega
      have hb3 : 0xC0 + c.toNat / 64 < 0xE0 := by omega
      simp only [hb, hb2, hb3, if_false, if_true]
      have harith : (0xC0 + c.toNat / 64 - 0xC0) * 64 + (0x80 + c.toNat % 64 - 0x80)
          = c.toNat := by omega
      rw [harith, Char.ofNat_toNat]
    · by_cases h3 : c.toNat < 0x10000
      · simp only [h1, h2, h3, if_true, if_false, List.cons_append, List.nil_append,
          utf8DecodeChar]
        have hb : ¬ (0xE0 + c.toNat / 4096 < 0x80) := by omega
        have hb2 : ¬ (0xE0 + c.toNat / 4096 < 0xC0) := by omega
        have hb3 : ¬ (0xE0 + c.toNat / 4096 < 0xE0) := by omega
        have hb4 : 0xE0 + c.toNat / 4096 < 0xF0 := by omega
        simp only [hb, hb2, hb3, hb4, if_false, if_true]
        have harith : (0xE0 + c.toNat / 4096 - 0xE0) * 4096
            + (0x80 + c.toNat / 64 % 64 - 0x80) * 64 + (0x80 + c.toNat % 64 - 0x80)
            = c.toNat := by omega
        rw [harith, Char.ofNat_toNat]
      · simp only [h1, h2, h3, if_false, List.cons_append, List.nil_append, utf8DecodeChar]
        have hb : ¬ (0xF0 + c.toNat / 262144 < 0x80) := by omega
        have hb2 : ¬ (0xF0 + c.toNat / 262144 < 0xC0) := by omega
        have hb3 : ¬ (0xF0 + c.toNat / 262144 < 0xE0) := by omega
        have hb4 : ¬ (0xF0 + c.toNat / 262144 < 0xF0) := by omega
        simp only [hb, hb2, hb3, hb4, if_false]
        have harith : (0xF0 + c.toNat / 262144 - 0xF0) * 262144
            + (0x80 + c.toNat / 4096 % 64 - 0x80) * 4096
            + (0x80 + c.toNat / 64 % 64 - 0x80) * 64 + (0x80 + c.toNat % 64 - 0x80)
            = c.toNat := by omega
        rw [harith, Char.ofNat_toNat]

theorem utf8EncodeChar_ne_nil (c : Char) : utf8EncodeChar c ≠ [] := by
  simp only [utf8EncodeChar]
  split_ifs <;> simp

theorem utf8EncodeChar_append_inj {c₁ c₂ : Char} {r₁ r₂ : List Nat}
    (h : utf8EncodeChar c₁ ++ r₁ = utf8EncodeChar c₂ ++ r₂) : c₁ = c₂ ∧ r₁ = r₂ := by
  have h1 := utf8DecodeChar_encode c₁ r₁
  have h2 := utf8DecodeChar_encode c₂ r₂
  rw [h] at h1
  rw [h1] at h2
  simpa using h2

theorem utf8EncodeList_inj : ∀ (l₁ l₂ : List Char),
    l₁.flatMap utf8EncodeChar = l₂.flatMap utf8EncodeChar → l₁ = l₂ := by
  intro l₁
  induction l₁ with
  | nil =>
    intro l₂ h
    cases l₂ with
    | nil => rfl
    | cons c t =>
      simp only [List.flatMap_nil, List.flatMap_cons] at h
      exact absurd (List.append_eq_nil.mp h.symm).1 (utf8EncodeChar_ne_nil c)
  | cons c t ih =>
    intro l₂ h
    cases l₂ with
    | nil =>
      simp only [List.flatMap_nil, List.flatMap_cons] at h
      exact absurd (List.append_eq_nil.mp h).1 (utf8EncodeChar_ne_nil c)
    | cons c' t' =>
      simp only [List.flatMap_cons] at h
      obtain ⟨hc, ht⟩ := utf8EncodeChar_append_inj h
      exact hc ▸ (ih t' ht) ▸ rfl

theorem utf8Bytes_injective : Function.Injective utf8Bytes := by
  intro a b hab
  have hdata : a.data = b.data := utf8EncodeList_inj _ _ hab
  cases a; cases b; exact congrArg String.mk hdata

/-! ## SHA-256 (`sha2::Sha256` as used by `cache_validator.rs`)

`ValidatedCacheEntry::compute_checksum` feeds the UTF-8 bytes of the
cached string through SHA-256 and hex-encodes the 32-byte digest.  The
hash is embedded here directly from the FIPS 180-4 algorithm computed by
the `sha2` crate: 32-bit words are `Nat`s reduced modulo `2^32`. -/

/-- 32-bit truncation. -/
def w32 (n : Nat) : Nat := n % 4294967296

/-- Right rotation of a 32-bit word. -/
def rotr32 (x k : Nat) : Nat := w32 ((x >>> k) ||| (x <<< (32 - k)))

/-- Bitwise complement of a 32-bit word. -/
def not32 (x : Nat) : Nat := x ^^^ 4294967295

/-- The eight working variables of the SHA-256 compression function. -/
structure Sha256State where
  a : Nat
  b : Nat
  c : Nat
  d : Nat
  e : Nat
  f : Nat
  g : Nat
  h : Nat

/-- SHA-256 initial hash value (FIPS 180-4 §5.3.3; the standard's hex
words `6a09e667 …` written in decimal). -/
def sha256Init : Sha256State :=
  ⟨1779033703, 3144134277, 1013904242, 2773480762,
   1359893119, 2600822924, 528734635, 1541459225⟩

/-- SHA-256 round constants (FIPS 180-4 §4.2.2; the standard's 64 hex
words `428a2f98 …` written in decimal). -/
def sha256K : List Nat :=
  [1116352408, 1899447441, 3049323471, 3921009573,
   961987163, 1508970993, 2453635748, 2870763221,
   3624381080, 310598401, 607225278, 1426881987,
   1925078388, 2162078206, 2614888103, 3248222580,
   3835390401, 4022224774, 264347078, 604807628,
   770255983, 1249150122, 1555081692, 1996064986,
   2554220882, 2821834349, 2952996808, 3210313671,
   3336571891, 3584528711, 113926993, 338241895,
   666307205, 773529912, 1294757372, 1396182291,
   1695183700, 1986661051, 2177026350, 2456956037,
   2730485921, 2820302411, 3259730800, 3345764771,
   3516065817, 3600352804, 4094571909, 275423344,
   430227734, 506948616, 659060556, 883997877,
   958139571, 1322822218, 1537002063, 1747873779,
   1955562222, 2024104815, 2227730452, 2361852424,
   2428436474, 2756734187, 3204031479, 3329325298]

/-- Message-schedule sigma-0 (rotations 7 and 18, shift 3). -/
def smallSigma0 (x : Nat) : Nat := rotr32 x 7 ^^^ rotr32 x 18 ^^^ (x >>> 3)

/-- Message-schedule sigma-1 (rotations 17 and 19, shift 10). -/
def smallSigma1 (x : Nat) : Nat := rotr32 x 17 ^^^ rotr32 x 19 ^^^ (x >>> 10)

/-- Round-function Sigma-0 (rotations 2, 13, 22). -/
def bigSigma0 (x : Nat) : Nat := rotr32 x 2 ^^^ rotr32 x 13 ^^^ rotr32 x 22

/-- Round-function Sigma-1 (rotations 6, 11, 25). -/
def bigSigma1 (x : Nat) : Nat := rotr32 x 6 ^^^ rotr32 x 11 ^^^ rotr32 x 25

/-- Extends the 16 block words with one more schedule word. -/
def nextScheduleWord (ws : List Nat) : Nat :=
  let i := ws.length
  w32 (ws.getD (i - 16) 0 + smallSigma0 (ws.getD (i - 15) 0)
       + ws.getD (i - 7) 0 + smallSigma1 (ws.getD (i - 2) 0))

/-- Appends `k` schedule words to the given prefix of the schedule. -/
def extendSchedule (ws : List Nat) : Nat → List Nat
  | 0 => ws
  | k + 1 => extendSchedule (ws ++ [nextScheduleWord ws]) k

/-- One SHA-256 round on the working variables, given `K[i] + W[i]`. -/
def sha256Round (st : Sha256State) (kw : Nat × Nat) : Sha256State :=
  let t1 := w32 (st.h + bigSigma1 st.e + ((st.e &&& st.f) ^^^ (not32 st.e &&& st.g))
                 + kw.1 + kw.2)
  let t2 := w32 (bigSigma0 st.a + ((st.a &&& st.b) ^^^ (st.a &&& st.c) ^^^ (st.b &&& st.c)))
  ⟨w32 (t1 + t2), st.a, st.b, st.c, w32 (st.d + t1), st.e, st.f, st.g⟩

/-- Compresses one 16-word block into the running hash value. -/
def sha256Compress (st : Sha256State) (blockWords : List Nat) : Sha256State :=
  let ws := extendSchedule blockWords 48
  let r := (sha256K.zip ws).foldl sha256Round st
  ⟨w32 (st.a + r.a), w32 (st.b + r.b), w32 (st.c + r.c), w32 (st.d + r.d),
   w32 (st.e + r.e), w32 (st.f + r.f), w32 (st.g + r.g), w32 (st.h + r.h)⟩

/-- Big-endian 32-bit words from a byte list (length a multiple of 4). -/
def bytesToWords : List Nat → List Nat
  | b1 :: b2 :: b3 :: b4 :: rest => (b1 * 16777216 + b2 * 65536 + b3 * 256 + b4) :: bytesToWords rest
  | _ => []

/-- Splits a byte list into 64-byte blocks. -/
def toBlocks (l : List Nat) : List (List Nat) :=
  if h : l = [] then []
  else l.take 64 :: toBlocks (l.drop 64)
  termination_by l.length
  decreasing_by
    simp only [List.length_drop]
    have : l.length ≠ 0 := fun hz => h (List.eq_nil_of_length_eq_zero hz)
    omega

/-- SHA-256 padding: append `0x80`, zeros, and the 64-bit message bit length. -/
def sha256Pad (msg : List Nat) : List Nat :=
  let len := msg.length
  let zeros := (64 - (len + 9) % 64) % 64
  let bits := len * 8
  msg ++ [0x80] ++ List.replicate zeros 0
      ++ [bits / 72057594037927936 % 256, bits / 281474976710656 % 256,
          bits / 1099511627776 % 256, bits / 4294967296 % 256,
          bits / 16777216 % 256, bits / 65536 % 256, bits / 256 % 256, bits % 256]

/-- The SHA-256 hash value of a byte list, as the final eight-word state. -/
def sha256 (msg : List Nat) : Sha256State :=
  (toBlocks (sha256Pad msg)).foldl (fun st blk => sha256Compress st (bytesToWords blk)) sha256Init

/-- Lowercase hexadecimal digit. -/
def hexDigitChar (n : Nat) : Char :=
  if n < 10 then Char.ofNat (48 + n) else Char.ofNat (87 + n)

/-- Eight lowercase hex digits of a 32-bit word, most significant first
(identical to `hex::encode` of its four big-endian bytes). -/
def wordHex (x : Nat) : List Char :=
  [hexDigitChar (x / 268435456 % 16), hexDigitChar (x / 16777216 % 16),
   hexDigitChar (x / 1048576 % 16), hexDigitChar (x / 65536 % 16),
   hexDigitChar (x / 4096 % 16), hexDigitChar (x / 256 % 16),
   hexDigitChar (x / 16 % 16), hexDigitChar (x % 16)]

/-- Hex-encoded SHA-256 digest of a byte list: 64 lowercase hex characters. -/
def sha256HexChars (msg : List Nat) : List Char :=
  let st := sha256 msg
  wordHex st.a ++ wordHex st.b ++ wordHex st.c ++ wordHex st.d
    ++ wordHex st.e ++ wordHex st.f ++ wordHex st.g ++ wordHex st.h

theorem sha256HexChars_length (msg : List Nat) : (sha256HexChars msg).length = 64 := by
  simp [sha256HexChars, wordHex]

/-! ## `cache_validator.rs` — `ValidatedCacheEntry`

The entry couples a cached JSON string with the hex SHA-256 checksum of
its bytes.  `serialize` is `serde_json::to_string`, which for this
two-string struct produces exactly
`\x7b"data":"…","checksum":"…"\x7d` with serde's string escaping
(`"` and `\` escaped, control characters as `\b \t \n \f \r` or
`\u00xx`, everything else verbatim).  `deserialize_and_validate` is
`serde_json::from_str` followed by the checksum test; the parser below
accepts the JSON grammar serde accepts for this struct — an object with
exactly the members `data` and `checksum` (either order, surrounding
whitespace allowed).  (serde would additionally skip unknown members;
no verified property depends on those inputs.) -/

/-- serde's escaping of one character inside a JSON string literal. -/
def escChar (ch : Char) : List Char :=
  if ch = '"' then ['\\', '"']
  else if ch = '\\' then ['\\', '\\']
  else if ch.toNat = 8 then ['\\', 'b']
  else if ch.toNat = 9 then ['\\', 't']
  else if ch.toNat = 10 then ['\\', 'n']
  else if ch.toNat = 12 then ['\\', 'f']
  else if ch.toNat = 13 then ['\\', 'r']
  else if ch.toNat < 32 then
    ['\\', 'u', '0', '0', hexDigitChar (ch.toNat / 16), hexDigitChar (ch.toNat % 16)]
  else [ch]

/-- serde's JSON string-body escaping. -/
def escapeJson (s : List Char) : List Char := s.flatMap escChar

/-- Value of a hexadecimal digit character, if any (JSON `\u` escapes). -/
def hexVal (c : Char) : Option Nat :=
  if 48 ≤ c.toNat ∧ c.toNat ≤ 57 then some (c.toNat - 48)
  else if 97 ≤ c.toNat ∧ c.toNat ≤ 102 then some (c.toNat - 87)
  else if 65 ≤ c.toNat ∧ c.toNat ≤ 70 then some (c.toNat - 55)
  else none

/-- Combines four hex digits of a `\uXXXX` escape. -/
def hexVal4 (h1 h2 h3 h4 : Char) : Option Nat :=
  match hexVal h1, hexVal h2, hexVal h3, hexVal h4 with
  | some a, some b, some c, some d => some (a * 4096 + b * 256 + c * 16 + d)
  | _, _, _, _ => none

/-- The single-character JSON escapes. -/
def simpleEscChar (e : Char) : Option Char :=
  if e = '"' then some '"'
  else if e = '\\' then some '\\'
  else if e = '/' then some '/'
  else if e = 'b' then some (Char.ofNat 8)
  else if e = 'f' then some (Char.ofNat 12)
  else if e = 'n' then some (Char.ofNat 10)
  else if e = 'r' then some (Char.ofNat 13)
  else if e = 't' then some (Char.ofNat 9)
  else none

/-- Parses a JSON string body (after the opening quote) up to and
including the closing quote; yields the decoded body and the rest. -/
def parseStr : List Char → Option (List Char × List Char)
  | [] => none
  | c :: rest =>
    if c = '"' then some ([], rest)
    else if c = '\\' then
      match rest with
      | [] => none
      | e :: rest2 =>
        if e = 'u' then
          match rest2 with
          | h1 :: h2 :: h3 :: h4 :: rest4 =>
            match hexVal4 h1 h2 h3 h4 with
            | some n => (parseStr rest4).map fun p => (Char.ofNat n :: p.1, p.2)
            | none => none
          | _ => none
        else
          match simpleEscChar e with
          | some ch => (parseStr rest2).map fun p => (ch :: p.1, p.2)
          | none => none
    else
      (parseStr rest).map fun p => (c :: p.1, p.2)

/-- JSON insignificant whitespace. -/
def isJsonWs (c : Char) : Bool :=
  c = ' ' || c.toNat = 9 || c.toNat = 10 || c.toNat = 13

/-- Skips insignificant whitespace. -/
def skipWs : List Char → List Char
  | [] => []
  | c :: rest => if isJsonWs c then skipWs rest else c :: rest

/-- Parses one `"key" : "value"` object member. -/
def parseMember (l : List Char) : Option (List Char × List Char × List Char) :=
  match skipWs l with
  | c :: r1 =>
    if c = '"' then
      match parseStr r1 with
      | some (key, r2) =>
        match skipWs r2 with
        | c2 :: r3 =>
          if c2 = ':' then
            match skipWs r3 with
            | c3 :: r4 =>
              if c3 = '"' then
                match parseStr r4 with
                | some (val, r5) => some (key, val, r5)
                | none => none
              else none
            | [] => none
          else none
        | [] => none
      | none => none
    else none
  | [] => none

/-- Parses the serialized form of a `ValidatedCacheEntry`: an object with
exactly the members `data` and `checksum`, in either order.  Returns
`(data, checksum)`. -/
def parseEntry (l : List Char) : Option (List Char × List Char) :=
  match skipWs l with
  | c :: r1 =>
    if c = Char.ofNat 123 then
      match parseMember r1 with
      | some (k1, v1, r2) =>
        match skipWs r2 with
        | c2 :: r3 =>
          if c2 = ',' then
            match parseMember r3 with
            | some (k2, v2, r4) =>
              match skipWs r4 with
              | c3 :: r5 =>
                if c3 = Char.ofNat 125 ∧ skipWs r5 = [] then
                  if k1 = "data".data ∧ k2 = "checksum".data then some (v1, v2)
                  else if k1 = "checksum".data ∧ k2 = "data".data then some (v2, v1)
                  else none
                else none
              | [] => none
            | none => none
          else none
        | [] => none
      | none => none
    else none
  | [] => none

/-- `ValidatedCacheEntry`: cached data plus hex SHA-256 checksum. -/
structure ValidatedCacheEntry where
  data : String
  checksum : String
deriving DecidableEq

namespace ValidatedCacheEntry

/-- `ValidatedCacheEntry::compute_checksum`. -/
def compute_checksum (data : String) : String :=
  ⟨sha256HexChars (utf8Bytes data)⟩

/-- `ValidatedCacheEntry::new`. -/
def new (data : String) : ValidatedCacheEntry :=
  ⟨data, compute_checksum data⟩

/-- `ValidatedCacheEntry::is_valid`. -/
def is_valid (e : ValidatedCacheEntry) : Bool :=
  compute_checksum e.data == e.checksum

/-- The serialized entry as a character list: opening brace, the `data`
member, the `checksum` member, closing brace. -/
def serializeChars (d c : List Char) : List Char :=
  Char.ofNat 123 :: ("\"data\":\"".data ++ (escapeJson d ++ ("\",\"checksum\":\"".data
    ++ (escapeJson c ++ ("\"".data ++ [Char.ofNat 125])))))

/-- `ValidatedCacheEntry::serialize` (`serde_json::to_string`). -/
def serialize (e : ValidatedCacheEntry) : String :=
  ⟨serializeChars e.data.data e.checksum.data⟩

/-- `ValidatedCacheEntry::deserialize_and_validate`. -/
def deserialize_and_validate (serialized : String) : Option String :=
  match parseEntry serialized.data with
  | none => none
  | some (d, c) =>
    let entry : ValidatedCacheEntry := ⟨⟨d⟩, ⟨c⟩⟩
    if entry.is_valid then some entry.data else none

end ValidatedCacheEntry

theorem hexVal_hexDigitChar {n : Nat} (h : n < 16) : hexVal (hexDigitChar n) = some n := by
  have hfin : ∀ m : Fin 16, hexVal (hexDigitChar m.val) = some m.val := by decide
  exact hfin ⟨n, h⟩

theorem parseStr_quote (r : List Char) : parseStr ('"' :: r) = some ([], r) := by
  rw [parseStr.eq_def]; simp

theorem parseStr_escSimple (e : Char) (ch : Char) (r : List Char)
    (he : e ≠ 'u') (hs : simpleEscChar e = some ch) :
    parseStr ('\\' :: e :: r) = (parseStr r).map fun p => (ch :: p.1, p.2) := by
  rw [parseStr.eq_def]; simp [he, hs]

theorem parseStr_escU (h1 h2 h3 h4 : Char) (r : List Char) (n : Nat)
    (hx : hexVal4 h1 h2 h3 h4 = some n) :
    parseStr ('\\' :: 'u' :: h1 :: h2 :: h3 :: h4 :: r)
      = (parseStr r).map fun p => (Char.ofNat n :: p.1, p.2) := by
  rw [parseStr.eq_def]; simp [hx]

theorem parseStr_other (c : Char) (r : List Char) (hq : c ≠ '"') (hb : c ≠ '\\') :
    parseStr (c :: r) = (parseStr r).map fun p => (c :: p.1, p.2) := by
  rw [parseStr.eq_def]; simp [hq, hb]

theorem parseStr_escChar (ch : Char) (tail : List Char) (p : List Char × List Char)
    (h : parseStr tail = some p) :
    parseStr (escChar ch ++ tail) = some (ch :: p.1, p.2) := by
  by_cases h1 : ch = '"'
  · subst h1
    rw [show escChar '"' = ['\\', '"'] from by decide, List.cons_append, List.cons_append,
      List.nil_append, parseStr_escSimple '"' '"' tail (by decide) (by decide), h]
    rfl
  · by_cases h2 : ch = '\\'
    · subst h2
      rw [show escChar '\\' = ['\\', '\\'] from by decide, List.cons_append, List.cons_append,
        List.nil_append, parseStr_escSimple '\\' '\\' tail (by decide) (by decide), h]
      rfl
    · by_cases h3 : ch.toNat = 8
      · have hc : ch = Char.ofNat 8 := by rw [← Char.ofNat_toNat ch, h3]
        subst hc
        rw [show escChar (Char.ofNat 8) = ['\\', 'b'] from by decide, List.cons_append,
          List.cons_append, List.nil_append,
          parseStr_escSimple 'b' (Char.ofNat 8) tail (by decide) (by decide), h]
        rfl
      · by_cases h4 : ch.toNat = 9
        · have hc : ch = Char.ofNat 9 := by rw [← Char.ofNat_toNat ch, h4]
          subst hc
          rw [show escChar (Char.ofNat 9) = ['\\', 't'] from by decide, List.cons_append,
            List.cons_append, List.nil_append,
            parseStr_escSimple 't' (Char.ofNat 9) tail (by decide) (by decide), h]
          rfl
        · by_cases h5 : ch.toNat = 10
          · have hc : ch = Char.ofNat 10 := by rw [← Char.ofNat_toNat ch, h5]
            subst hc
            rw [show escChar (Char.ofNat 10) = ['\\', 'n'] from by decide, List.cons_append,
              List.cons_append, List.nil_append,
              parseStr_escSimple 'n' (Char.ofNat 10) tail (by decide) (by decide), h]
            rfl
          · by_cases h6 : ch.toNat = 12
            · have hc : ch = Char.ofNat 12 := by rw [← Char.ofNat_toNat ch, h6]
              subst hc
              rw [show escChar (Char.ofNat 12) = ['\\', 'f'] from by decide, List.cons_append,
                List.cons_append, List.nil_append,
                parseStr_escSimple 'f' (Char.ofNat 12) tail (by decide) (by decide), h]
              rfl
            · by_cases h7 : ch.toNat = 13
              · have hc : ch = Char.ofNat 13 := by rw [← Char.ofNat_toNat ch, h7]
                subst hc
                rw [show escChar (Char.ofNat 13) = ['\\', 'r'] from by decide, List.cons_append,
                  List.cons_append, List.nil_append,
                  parseStr_escSimple 'r' (Char.ofNat 13) tail (by decide) (by decide), h]
                rfl
              · by_cases h8 : ch.toNat < 32
                · -- `\u00xx` escape
                  have hesc : escChar ch = ['\\', 'u', '0', '0',
                      hexDigitChar (ch.toNat / 16), hexDigitChar (ch.toNat % 16)] := by
                    simp only [escChar, h1, h2, h3, h4, h5, h6, h7, h8, if_true, if_false]
                  have hdiv : ch.toNat / 16 < 16 := by omega
                  have hmod : ch.toNat % 16 < 16 := by omega
                  have hz : hexVal '0' = some 0 := by decide
                  have hx4 : hexVal4 '0' '0' (hexDigitChar (ch.toNat / 16))
                      (hexDigitChar (ch.toNat % 16)) = some ch.toNat := by
                    simp only [hexVal4, hz, hexVal_hexDigitChar hdiv, hexVal_hexDigitChar hmod]
                    congr 1
                    omega
                  rw [hesc]
                  simp only [List.cons_append, List.nil_append]
                  rw [parseStr_escU _ _ _ _ tail ch.toNat hx4, h, Char.ofNat_toNat]
                  rfl
                · -- ordinary character, emitted verbatim
                  have hesc : escChar ch = [ch] := by
                    simp only [escChar, h1, h2, h3, h4, h5, h6, h7, h8, if_false]
                  rw [hesc, List.cons_append, List.nil_append,
                    parseStr_other ch tail h1 h2, h]
                  rfl

theorem parseStr_escape (s : List Char) (r : List Char) :
    parseStr (escapeJson s ++ '"' :: r) = some (s, r) := by
  induction s with
  | nil => simp [escapeJson, parseStr_quote]
  | cons c t ih =>
    simp only [escapeJson, List.flatMap_cons, List.append_assoc]
    exact parseStr_escChar c _ (t, r) (by simpa [escapeJson] using ih)

theorem parseEntry_serialize (d c : List Char) :
    parseEntry (ValidatedCacheEntry.serializeChars d c) = some (d, c) := by
  have hshape : ValidatedCacheEntry.serializeChars d c
      = Char.ofNat 123 :: '"' :: 'd' :: 'a' :: 't' :: 'a' :: '"' :: ':' :: '"'
        :: (escapeJson d ++ ('"' :: ',' :: '"' :: 'c' :: 'h' :: 'e' :: 'c' :: 'k' :: 's'
        :: 'u' :: 'm' :: '"' :: ':' :: '"' :: (escapeJson c ++ ('"' :: [Char.ofNat 125])))) := rfl
  rw [hshape]
  simp +decide [parseEntry, skipWs, isJsonWs, parseMember, parseStr_quote, parseStr_other,
    parseStr_escape]

/-- C5: for every string `s`, sealing `s` (`ValidatedCacheEntry::new`) and
unsealing the serialized entry (`deserialize_and_validate ∘ serialize`)
returns `Some s`. -/
theorem C5_seal_unseal_roundtrip (s : String) :
    ValidatedCacheEntry.deserialize_and_validate (ValidatedCacheEntry.new s).serialize
      = some s := by
  have hd : ((⟨ValidatedCacheEntry.serializeChars s.data
      (ValidatedCacheEntry.compute_checksum s).data⟩ : String)).data
      = ValidatedCacheEntry.serializeChars s.data
        (ValidatedCacheEntry.compute_checksum s).data := rfl
  show ValidatedCacheEntry.deserialize_and_validate
      ⟨ValidatedCacheEntry.serializeChars s.data
        (ValidatedCacheEntry.compute_checksum s).data⟩ = some s
  unfold ValidatedCacheEntry.deserialize_and_validate
  rw [hd, parseEntry_serialize]
  simp [ValidatedCacheEntry.is_valid]

/-- C6: for every entry whose stored checksum does not equal the checksum
recomputed over its (possibly mutated) content, `deserialize_and_validate`
of the serialized entry returns `none`; and whenever deserialization of
the input fails, `deserialize_and_validate` also returns `none` rather
than any data. -/
theorem C6_tamper_detection (e : ValidatedCacheEntry)
    (hbad : ValidatedCacheEntry.compute_checksum e.data ≠ e.checksum) :
    ValidatedCacheEntry.deserialize_and_validate e.serialize = none
    ∧ ∀ s : String, parseEntry s.data = none
      → ValidatedCacheEntry.deserialize_and_validate s = none := by
  constructor
  · have hd : ((⟨ValidatedCacheEntry.serializeChars e.data.data e.checksum.data⟩ : String)).data
        = ValidatedCacheEntry.serializeChars e.data.data e.checksum.data := rfl
    show ValidatedCacheEntry.deserialize_and_validate
        ⟨ValidatedCacheEntry.serializeChars e.data.data e.checksum.data⟩ = none
    unfold ValidatedCacheEntry.deserialize_and_validate
    rw [hd, parseEntry_serialize]
    simp [ValidatedCacheEntry.is_valid, hbad]
  · intro s hs
    unfold ValidatedCacheEntry.deserialize_and_validate
    rw [hs]

/-- Witness for C6: the concrete entry whose content is `"x"` but whose
stored checksum is the empty string is rejected by `unseal`. -/
theorem C6_tamper_detection_witness :
    ValidatedCacheEntry.compute_checksum "x" ≠ ""
    ∧ ValidatedCacheEntry.deserialize_and_validate
        (ValidatedCacheEntry.serialize ⟨"x", ""⟩) = none := by
  have hlen : (ValidatedCacheEntry.compute_checksum "x").data.length = 64 :=
    sha256HexChars_length (utf8Bytes "x")
  have hneq : ValidatedCacheEntry.compute_checksum "x" ≠ "" := by
    intro heq
    rw [heq] at hlen
    simp at hlen
  exact ⟨hneq, (C6_tamper_detection ⟨"x", ""⟩ hneq).1⟩

/-! ## `errors.rs` — `AppError` -/

/-- `AppError` (`errors.rs`).  `DatabaseError` carries only the message
of the underlying `sqlx::Error`. -/
inductive AppError
  | DatabaseError (msg : String)
  | NotFound (msg : String)
  | BadRequest (msg : String)
  | ExternalApiError (msg : String)
  | InternalError (msg : String)
  | Unauthorized (msg : String)
  | WithContext (source : AppError) (context : String)
deriving DecidableEq

/-! ## `enrichment.rs` — channel validation

`is_valid_email` is embedded in full.  Rust's `str::len` is the UTF-8
byte count, `str::contains(char)` tests character membership, and
`str::contains(&str)` finds a byte substring — for the pure-ASCII fake
patterns a byte-level occurrence coincides with a character-level one
(UTF-8 continuation bytes are ≥ 0x80), so the search runs on characters.
The anchored RFC 5322-style regex is realized as an explicit checker:
a match is exactly a split `local@domain` at the first `@` (the local
class excludes `@`), `local` nonempty over the local character class,
and `domain` a `.`-separated sequence of labels, each label 1–63 chars
of `[a-zA-Z0-9-]` beginning and ending alphanumeric (the regex shape
`X(Y{0,61}X)?` over the two character classes). -/

/-- Does `hay` start with `pat`? -/
def leadsWith : List Char → List Char → Bool
  | [], _ => true
  | _ :: _, [] => false
  | p :: ps, c :: cs => p == c && leadsWith ps cs

/-- Substring occurrence (Rust `str::contains(&str)`). -/
def containsSub : List Char → List Char → Bool
  | [], pat => pat.isEmpty
  | c :: t, pat => leadsWith pat (c :: t) || containsSub t pat

/-- String-level substring test. -/
def strContains (s pat : String) : Bool := containsSub s.data pat.data

/-- The fake/placeholder digit patterns rejected by `is_valid_email`. -/
def fake_patterns : List String := ["999999", "111111", "000000", "123456789"]

/-- Characters allowed in the local part of the e-mail regex. -/
def isLocalChar (c : Char) : Bool :=
  c.isAlpha || c.isDigit
    || [33, 35, 36, 37, 38, 39, 42, 43, 45, 46, 47, 61, 63, 94, 95, 96,
        123, 124, 125, 126].contains c.toNat

/-- `[a-zA-Z0-9]`. -/
def isLabelChar (c : Char) : Bool := c.isAlpha || c.isDigit

/-- One domain label: `[a-zA-Z0-9](?:[a-zA-Z0-9-]\x7b0,61\x7d[a-zA-Z0-9])?`. -/
def validLabel : List Char → Bool
  | [] => false
  | [c] => isLabelChar c
  | c :: rest =>
    isLabelChar c && rest.length ≤ 62
      && rest.dropLast.all (fun x => isLabelChar x || x == '-')
      && (match rest.getLast? with
          | some x => isLabelChar x
          | none => false)

/-- Splits at the first occurrence of `c`, if any. -/
def splitAtFirst (c : Char) : List Char → Option (List Char × List Char)
  | [] => none
  | x :: xs =>
    if x == c then some ([], xs)
    else (splitAtFirst c xs).map fun p => (x :: p.1, p.2)

/-- Splits on every `.` (keeping empty segments). -/
def splitOnDot : List Char → List (List Char)
  | [] => [[]]
  | c :: rest =>
    if c == '.' then [] :: splitOnDot rest
    else
      match splitOnDot rest with
      | h :: t => (c :: h) :: t
      | [] => [[c]]

/-- The simplified RFC 5322 e-mail regex of `is_valid_email`, anchored. -/
def emailRegexMatches (s : String) : Bool :=
  match splitAtFirst '@' s.data with
  | none => false
  | some (loc, dom) =>
    !loc.isEmpty && loc.all isLocalChar && (splitOnDot dom).all validLabel

/-- `is_valid_email` (`enrichment.rs`). -/
def is_valid_email (email : String) : Bool :=
  if (utf8Bytes email).length < 5
      || !(email.data.contains '@') || !(email.data.contains '.') then false
  else if fake_patterns.any (fun p => strContains email p) then false
  else emailRegexMatches email

/-- C8: an e-mail containing any of the fake digit patterns `999999`,
`111111`, `000000`, `123456789` is rejected by channel validation,
whatever the rest of the string looks like. -/
theorem C8_fake_pattern_email_rejected (email : String)
    (h : (strContains email "999999" || strContains email "111111"
          || strContains email "000000" || strContains email "123456789") = true) :
    is_valid_email email = false := by
  have hany : (fake_patterns.any fun p => strContains email p) = true := by
    simp only [fake_patterns, List.any_cons, List.any_nil, Bool.or_false]
    simp only [Bool.or_assoc] at h ⊢
    exact h
  unfold is_valid_email
  split
  · rfl
  · simp [hany]

/-- Witness for C8: `1199999999333@gmail.com` (structurally a valid
address) is rejected. -/
theorem C8_fake_pattern_email_rejected_witness :
    (strContains "1199999999333@gmail.com" "999999" || strContains "1199999999333@gmail.com" "111111"
      || strContains "1199999999333@gmail.com" "000000"
      || strContains "1199999999333@gmail.com" "123456789") = true
    ∧ is_valid_email "1199999999333@gmail.com" = false := by
  refine ⟨by decide, C8_fake_pattern_email_rejected _ (by decide)⟩

/-! ## `enrichment.rs` — identity resolution (`find_cpf_via_diretrix`)

The two Diretrix lookups (`services.rs::search_by_phone` /
`search_by_email`) and the `phonenumber`-based `validate_br_phone` are
external collaborators, passed as function parameters.  In the Rust
source the phone lookup is awaited to completion before the e-mail
lookup is begun (despite the `// Parallel lookup` comment there is no
`join!`/`spawn`, and neither call is wrapped by a circuit breaker), so
the embedding also returns the trace of blocking external calls in the
order they are issued. -/

/-- Search result from the Diretrix API (`services.rs`). -/
structure DiretrixPersonSearch where
  nome : String
  cpf : String
deriving DecidableEq

/-- Result of CPF lookup via Diretrix (`enrichment.rs`). -/
structure CpfLookupResult where
  cpfs : List String
  same_person : Bool
deriving DecidableEq

/-- A Diretrix lookup channel: phone or e-mail to ranked candidates. -/
abbrev DiretrixLookup := String → Except AppError (List DiretrixPersonSearch)

/-- One blocking external call made during resolution. -/
inductive DiretrixCall
  | phoneSearch (phone : String)
  | emailSearch (email : String)
deriving DecidableEq

/-- Phone validation and normalization step of `find_cpf_via_diretrix`. -/
def validatedPhoneOf (validate_br_phone : String → Bool × String)
    (phone : Option String) : Option String :=
  match phone with
  | some phone_number =>
    if !(phone_number == "") then
      let r := validate_br_phone phone_number
      if r.1 then some r.2 else none
    else none
  | none => none

/-- E-mail validation step of `find_cpf_via_diretrix`. -/
def validatedEmailOf (email : Option String) : Option String :=
  match email with
  | some email_addr =>
    if !(email_addr == "") && is_valid_email email_addr then some email_addr else none
  | none => none

/-- A channel lookup: `service.search_by_x(x).await.ok()` when the
channel survived validation, `None` otherwise. -/
def channelLookup (search : DiretrixLookup) (validated : Option String) :
    Option (List DiretrixPersonSearch) :=
  match validated with
  | some v => (search v).toOption
  | none => none

/-- First/highest-ranked candidate of a channel lookup
(`results[0].cpf` when non-empty). -/
def cpfOfLookup : Option (List DiretrixPersonSearch) → Option String
  | some results =>
    match results with
    | r :: _ => some r.cpf
    | [] => none
  | none => none

/-- `find_cpf_via_diretrix` (`enrichment.rs`), with the trace of external
calls it performs, in program order. -/
def find_cpf_via_diretrix (search_by_phone search_by_email : DiretrixLookup)
    (validate_br_phone : String → Bool × String)
    (phone email : Option String) :
    Except AppError CpfLookupResult × List DiretrixCall :=
  let validated_phone := validatedPhoneOf validate_br_phone phone
  let validated_email := validatedEmailOf email
  let tr1 := match validated_phone with
    | some p => [DiretrixCall.phoneSearch p]
    | none => []
  let phone_lookup := channelLookup search_by_phone validated_phone
  let tr2 := match validated_email with
    | some e => [DiretrixCall.emailSearch e]
    | none => []
  let email_lookup := channelLookup search_by_email validated_email
  let phone_cpf := cpfOfLookup phone_lookup
  let email_cpf := cpfOfLookup email_lookup
  let result : Except AppError CpfLookupResult :=
    match phone_cpf, email_cpf with
    | some p_cpf, some e_cpf =>
      if p_cpf = e_cpf then .ok ⟨[p_cpf], true⟩
      else .ok ⟨[p_cpf, e_cpf], false⟩
    | some cpf, none => .ok ⟨[cpf], false⟩
    | none, some cpf => .ok ⟨[cpf], false⟩
    | none, none => .error (.NotFound "Could not find CPF via Diretrix")
  (result, tr1 ++ tr2)

/-- C2: reconciliation of the two channel lookups: equal identifiers →
one entry and `same_person = true`; different → both kept and
`same_person = false`; one channel → one entry, `same_person = false`;
neither → `NotFound`. -/
theorem C2_identity_reconciliation (sp se : DiretrixLookup)
    (vp : String → Bool × String) (phone email : Option String) :
    let pc := cpfOfLookup (channelLookup sp (validatedPhoneOf vp phone))
    let ec := cpfOfLookup (channelLookup se (validatedEmailOf email))
    let res := (find_cpf_via_diretrix sp se vp phone email).1
    (∀ p e, pc = some p → ec = some e → p = e → res = .ok ⟨[p], true⟩)
    ∧ (∀ p e, pc = some p → ec = some e → p ≠ e → res = .ok ⟨[p, e], false⟩)
    ∧ (∀ p, pc = some p → ec = none → res = .ok ⟨[p], false⟩)
    ∧ (∀ e, pc = none → ec = some e → res = .ok ⟨[e], false⟩)
    ∧ (pc = none → ec = none
        → res = .error (.NotFound "Could not find CPF via Diretrix")) := by
  refine ⟨?_, ?_, ?_, ?_, ?_⟩ <;>
    simp only [find_cpf_via_diretrix] <;>
    intros <;> simp_all

/-- Witness for C2: both channels resolving to CPF `123` yields the
single-entry, `same_person = true` outcome. -/
theorem C2_identity_reconciliation_witness :
    let sp : DiretrixLookup := fun _ => .ok [⟨"Ann", "123"⟩]
    let se : DiretrixLookup := fun _ => .ok [⟨"Ann", "123"⟩]
    let vp : String → Bool × String := fun s => (true, s)
    cpfOfLookup (channelLookup sp (validatedPhoneOf vp (some "11987654321"))) = some "123"
    ∧ cpfOfLookup (channelLookup se (validatedEmailOf (some "ann@example.com"))) = some "123"
    ∧ (find_cpf_via_diretrix sp se vp (some "11987654321") (some "ann@example.com")).1
        = .ok ⟨["123"], true⟩ := by
  refine ⟨by decide, by decide, ?_⟩
  exact (C2_identity_reconciliation _ _ _ _ _).1 "123" "123" (by decide) (by decide) rfl

/-- C10: in the embedded control flow of `find_cpf_via_diretrix`, when
both channels survive validation the e-mail lookup is only issued after
the phone lookup has completed — the call trace is the sequential
`[phoneSearch, emailSearch]`, not two calls in flight at once, and no
circuit-breaker state appears anywhere in the resolution path. -/
theorem C10_lookups_sequential (sp se : DiretrixLookup)
    (vp : String → Bool × String) (phone email : Option String) (p e : String)
    (hp : validatedPhoneOf vp phone = some p)
    (he : validatedEmailOf email = some e) :
    (find_cpf_via_diretrix sp se vp phone email).2
      = [DiretrixCall.phoneSearch p, DiretrixCall.emailSearch e] := by
  simp only [find_cpf_via_diretrix, hp, he]
  rfl

/-- Witness for C10 at concrete inputs. -/
theorem C10_lookups_sequential_witness :
    validatedPhoneOf (fun s => (true, s)) (some "11987654321") = some "11987654321"
    ∧ validatedEmailOf (some "ann@example.com") = some "ann@example.com"
    ∧ (find_cpf_via_diretrix (fun _ => .ok []) (fun _ => .ok [])
        (fun s => (true, s)) (some "11987654321") (some "ann@example.com")).2
      = [DiretrixCall.phoneSearch "11987654321", DiretrixCall.emailSearch "ann@example.com"] := by
  refine ⟨by decide, by decide, ?_⟩
  exact C10_lookups_sequential _ _ _ _ _ _ _ (by decide) (by decide)

/-! ## `enrichment.rs` — batch enrichment (`enrich_cpfs_with_work_api`)

`WorkApiService::fetch_all_modules` is an external HTTP call, passed as
a parameter; its successful payload type is abstract. -/

/-- `enrich_cpfs_with_work_api` (`enrichment.rs`): attempts every CPF,
keeps the successes, and fails only when no fetch succeeded. -/
def enrich_cpfs_with_work_api {α : Type} (fetch_all_modules : String → Except AppError α)
    (cpfs : List String) : Except AppError (List α) :=
  let enriched_data := cpfs.foldl
    (fun acc cpf =>
      match fetch_all_modules cpf with
      | .ok data => acc ++ [data]
      | .error _ => acc) []
  if enriched_data.isEmpty then .error (.ExternalApiError "No enrichment data available")
  else .ok enriched_data

theorem enrichFold_eq_filterMap {α : Type} (fetch : String → Except AppError α) :
    ∀ (l : List String) (acc : List α),
      l.foldl (fun acc cpf =>
        match fetch cpf with
        | .ok data => acc ++ [data]
        | .error _ => acc) acc
      = acc ++ l.filterMap fun c => (fetch c).toOption := by
  intro l
  induction l with
  | nil => intro acc; simp
  | cons c t ih =>
    intro acc
    simp only [List.foldl_cons, List.filterMap_cons]
    cases hfc : fetch c with
    | ok data => rw [ih]; simp [Except.toOption]
    | error err => rw [ih]; simp [Except.toOption]

theorem toOption_eq_none_iff {α : Type} (x : Except AppError α) :
    x.toOption = none ↔ ∃ e, x = .error e := by
  cases x <;> simp [Except.toOption]

/-- C9: for a non-empty batch, every fetch is attempted independently;
the batch fails iff every individual fetch fails, and otherwise succeeds
with exactly the successfully fetched profiles (in batch order). -/
theorem C9_batch_partial_failure {α : Type} (fetch : String → Except AppError α)
    (cpfs : List String) (hne : cpfs ≠ []) :
    ((∃ err, enrich_cpfs_with_work_api fetch cpfs = .error err)
      ↔ ∀ cpf ∈ cpfs, ∃ e, fetch cpf = .error e)
    ∧ (∀ l, enrich_cpfs_with_work_api fetch cpfs = .ok l
        → l = (cpfs.filterMap fun c => (fetch c).toOption) ∧ l ≠ []) := by
  have hfold := enrichFold_eq_filterMap fetch cpfs []
  rw [List.nil_append] at hfold
  constructor
  · constructor
    · rintro ⟨err, herr⟩ cpf hcpf
      unfold enrich_cpfs_with_work_api at herr
      rw [hfold] at herr
      by_cases hemp : (cpfs.filterMap fun c => (fetch c).toOption).isEmpty
      · have : (fetch cpf).toOption = none := by
          rw [List.isEmpty_iff, List.filterMap_eq_nil] at hemp
          exact hemp cpf hcpf
        exact (toOption_eq_none_iff _).mp this
      · rw [if_neg hemp] at herr
        exact absurd herr (by simp)
    · intro hall
      refine ⟨.ExternalApiError "No enrichment data available", ?_⟩
      unfold enrich_cpfs_with_work_api
      rw [hfold]
      have hemp : (cpfs.filterMap fun c => (fetch c).toOption) = [] := by
        rw [List.filterMap_eq_nil]
        intro c hc
        exact (toOption_eq_none_iff _).mpr (hall c hc)
      simp [hemp]
  · intro l hok
    unfold enrich_cpfs_with_work_api at hok
    rw [hfold] at hok
    by_cases hemp : (cpfs.filterMap fun c => (fetch c).toOption).isEmpty
    · rw [if_pos hemp] at hok
      exact absurd hok (by simp)
    · rw [if_neg hemp] at hok
      have hl : l = cpfs.filterMap fun c => (fetch c).toOption := by
        cases hok; rfl
      refine ⟨hl, ?_⟩
      rw [hl]
      intro hnil
      rw [hnil] at hemp
      simp at hemp

/-- Witness for C9: one of two fetches fails, the batch still succeeds
with exactly the surviving profile. -/
theorem C9_batch_partial_failure_witness :
    let fetch : String → Except AppError Nat :=
      fun c => if c = "1" then .ok 10 else .error (.ExternalApiError "down")
    (["1", "2"] : List String) ≠ []
    ∧ enrich_cpfs_with_work_api fetch ["1", "2"] = .ok [10]
    ∧ ((∃ err, enrich_cpfs_with_work_api fetch ["1", "2"] = .error err)
        ↔ ∀ cpf ∈ ["1", "2"], ∃ e, fetch cpf = .error e) := by
  refine ⟨by decide, by rfl, (C9_batch_partial_failure _ _ (by decide)).1⟩

/-! ## `webhook_handler.rs` / `webhook_models.rs` — intake orchestration

The `webhook_events` table is a list of rows; `chrono` timestamp parsing
(`parse_timestamp`) is an external collaborator passed as a parameter
over an abstract timestamp type `T` (only equality of parsed values
matters to the handler).  `serde_json::to_value(&event)` (infallible for
these derive-serialized structs) is modeled by storing the event itself
as the raw payload.  Header extraction is modeled by the optional value
of the `X-Webhook-Token` header. -/

/-- Customer block of a webhook event (`webhook_models.rs`). -/
structure WebhookCustomer where
  name : Option String
  email : Option String
  phone : Option String
deriving DecidableEq

/-- Attributes of a webhook event (fields the handler consumes). -/
structure WebhookAttributes where
  updated_at : Option String
  customer : Option WebhookCustomer
deriving DecidableEq

/-- One C2S webhook event (fields the handler consumes). -/
structure WebhookEvent where
  id : String
  hook_action : Option String
  attributes : WebhookAttributes
deriving DecidableEq

/-- `WebhookPayload`: a single event or a batch. -/
inductive WebhookPayload
  | Single (event : WebhookEvent)
  | Batch (events : List WebhookEvent)
deriving DecidableEq

/-- `WebhookPayload::into_events`. -/
def WebhookPayload.into_events : WebhookPayload → List WebhookEvent
  | .Single event => [event]
  | .Batch events => events

/-- Receipt status column (`received → processing → completed | failed`). -/
inductive WebhookStatus
  | received
  | processing
  | completed
  | failed
deriving DecidableEq

/-- One row of the `webhook_events` receipt table. -/
structure WebhookReceipt (T : Type) where
  lead_id : String
  updated_at : T
  hook_action : Option String
  payload_raw : WebhookEvent
  status : WebhookStatus
  error_message : Option String
deriving DecidableEq

/-- `WebhookResponse` (`webhook_models.rs`). -/
structure WebhookResponse where
  status : String
  received : Nat
  processed : Nat
  duplicates : Nat
deriving DecidableEq

/-- A detached background job spawned by the handler. -/
structure SpawnedJob (T : Type) where
  lead_id : String
  updated_at : T
  event : WebhookEvent
deriving DecidableEq

/-- `constant_time_compare` (`webhook_handler.rs`): length check then a
fold of or-ed xors over the zipped UTF-8 bytes. -/
def constant_time_compare (a b : String) : Bool :=
  if (utf8Bytes a).length ≠ (utf8Bytes b).length then false
  else ((utf8Bytes a).zip (utf8Bytes b)).foldl (fun acc p => acc ||| (p.1 ^^^ p.2)) 0 == 0

/-- `validate_webhook_secret` (`webhook_handler.rs`): skip when no secret
is configured; when configured, reject only a PROVIDED token that fails
the constant-time comparison — a missing token is accepted (C2S direct
webhooks cannot send custom headers). -/
def validate_webhook_secret (webhook_secret : Option String) (token : Option String) :
    Except AppError Unit :=
  match webhook_secret with
  | none => .ok ()
  | some expected_secret =>
    match token with
    | some token_value =>
      if !constant_time_compare token_value expected_secret then
        .error (.Unauthorized "Invalid webhook token")
      else .ok ()
    | none => .ok ()

/-- `already_processed`: `SELECT EXISTS(… WHERE lead_id = $1 AND
updated_at = $2)`. -/
def already_processed {T : Type} [DecidableEq T] (db : List (WebhookReceipt T))
    (lead_id : String) (updated_at : T) : Bool :=
  db.any fun r => decide (r.lead_id = lead_id) && decide (r.updated_at = updated_at)

/-- `store_webhook_receipt`: `INSERT … VALUES ($1,$2,$3,$4,'received')`. -/
def store_webhook_receipt {T : Type} (db : List (WebhookReceipt T))
    (lead_id : String) (updated_at : T) (hook_action : Option String)
    (payload_raw : WebhookEvent) : List (WebhookReceipt T) :=
  db ++ [⟨lead_id, updated_at, hook_action, payload_raw, .received, none⟩]

/-- `ProcessResult` (`webhook_handler.rs`). -/
inductive ProcessResult
  | Processed
  | Duplicate
deriving DecidableEq

deriving instance DecidableEq for Except

/-- Outcome of `process_webhook_event`: the updated receipt table, the
returned result, and any spawned background job. -/
structure ProcessOutcome (T : Type) where
  db : List (WebhookReceipt T)
  result : Except AppError ProcessResult
  spawned : List (SpawnedJob T)
deriving DecidableEq

/-- `process_webhook_event` (`webhook_handler.rs`): require and parse
`updated_at`, check the receipt table for the exact pair, and only if
absent insert a `received` receipt and spawn the enrichment job.
(`parse_timestamp`'s chrono error text is elided from the message.) -/
def process_webhook_event {T : Type} [DecidableEq T]
    (parse_timestamp : String → Option T)
    (db : List (WebhookReceipt T)) (event : WebhookEvent) : ProcessOutcome T :=
  match event.attributes.updated_at with
  | none => ⟨db, .error (.BadRequest "Missing updated_at in webhook event"), []⟩
  | some updated_at_str =>
    match parse_timestamp updated_at_str with
    | none => ⟨db, .error (.BadRequest ("Invalid timestamp format '" ++ updated_at_str ++ "'")), []⟩
    | some updated_at_ts =>
      if already_processed db event.id updated_at_ts then
        ⟨db, .ok .Duplicate, []⟩
      else
        ⟨store_webhook_receipt db event.id updated_at_ts event.hook_action event,
         .ok .Processed, [⟨event.id, updated_at_ts, event⟩]⟩

/-- Handler fold state: receipt table, counters, spawned jobs. -/
structure HandlerState (T : Type) where
  db : List (WebhookReceipt T)
  processed : Nat
  duplicates : Nat
  spawned : List (SpawnedJob T)
deriving DecidableEq

/-- Final outcome of one `c2s_webhook` call. -/
structure HandlerOutcome (T : Type) where
  db : List (WebhookReceipt T)
  response : WebhookResponse
  spawned : List (SpawnedJob T)
deriving DecidableEq

/-- `c2s_webhook` (`webhook_handler.rs`): validate the secret, then
process every event of the payload, counting processed and duplicate
events; per-event errors are logged and skipped, and the HTTP response
reports the counts with status `"received"`. -/
def c2s_webhook {T : Type} [DecidableEq T] (parse_timestamp : String → Option T)
    (webhook_secret : Option String) (token : Option String)
    (db : List (WebhookReceipt T)) (payload : WebhookPayload) :
    Except AppError (HandlerOutcome T) :=
  match validate_webhook_secret webhook_secret token with
  | .error e => .error e
  | .ok _ =>
    let events := payload.into_events
    let final := events.foldl
      (fun (st : HandlerState T) event =>
        let out := process_webhook_event parse_timestamp st.db event
        match out.result with
        | .ok .Processed => ⟨out.db, st.processed + 1, st.duplicates, st.spawned ++ out.spawned⟩
        | .ok .Duplicate => ⟨out.db, st.processed, st.duplicates + 1, st.spawned ++ out.spawned⟩
        | .error _ => ⟨out.db, st.processed, st.duplicates, st.spawned ++ out.spawned⟩)
      ⟨db, 0, 0, []⟩
    .ok ⟨final.db, ⟨"received", events.length, final.processed, final.duplicates⟩, final.spawned⟩

/-- C1: submitting the same event twice: the first submission inserts one
`received` receipt and spawns one job; the second finds the exact
`(lead_id, updated_at)` pair in the durable table before any insertion,
is classified `Duplicate` (not an error), inserts no second row, spawns
no task, and is reported as `duplicates = 1` in the response. -/
theorem C1_idempotent_intake {T : Type} [DecidableEq T]
    (parse_timestamp : String → Option T) (webhook_secret token : Option String)
    (db : List (WebhookReceipt T)) (event : WebhookEvent) (s : String) (ts : T)
    (hsec : validate_webhook_secret webhook_secret token = .ok ())
    (hupd : event.attributes.updated_at = some s)
    (hts : parse_timestamp s = some ts)
    (hfresh : already_processed db event.id ts = false) :
    c2s_webhook parse_timestamp webhook_secret token db (.Single event)
      = .ok ⟨db ++ [⟨event.id, ts, event.hook_action, event, .received, none⟩],
             ⟨"received", 1, 1, 0⟩, [⟨event.id, ts, event⟩]⟩
    ∧ already_processed
        (db ++ [⟨event.id, ts, event.hook_action, event, .received, none⟩]) event.id ts = true
    ∧ c2s_webhook parse_timestamp webhook_secret token
        (db ++ [⟨event.id, ts, event.hook_action, event, .received, none⟩]) (.Single event)
      = .ok ⟨db ++ [⟨event.id, ts, event.hook_action, event, .received, none⟩],
             ⟨"received", 1, 0, 1⟩, []⟩ := by
  have hdup : already_processed
      (db ++ [⟨event.id, ts, event.hook_action, event, .received, none⟩]) event.id ts = true := by
    simp [already_processed, List.any_append]
  refine ⟨?_, hdup, ?_⟩
  · simp [c2s_webhook, hsec, WebhookPayload.into_events, process_webhook_event, hupd, hts,
      hfresh, store_webhook_receipt]
  · simp [c2s_webhook, hsec, WebhookPayload.into_events, process_webhook_event, hupd, hts, hdup]

/-- Witness for C1: a concrete event over `T = Nat` submitted twice. -/
theorem C1_idempotent_intake_witness :
    validate_webhook_secret none none = .ok ()
    ∧ (⟨"L1", none, ⟨some "2025-01-01T00:00:00Z", none⟩⟩ :
        WebhookEvent).attributes.updated_at = some "2025-01-01T00:00:00Z"
    ∧ (fun _ : String => some (0 : Nat)) "2025-01-01T00:00:00Z" = some 0
    ∧ already_processed ([] : List (WebhookReceipt Nat)) "L1" 0 = false
    ∧ c2s_webhook (fun _ => some (0 : Nat)) none none []
        (.Single ⟨"L1", none, ⟨some "2025-01-01T00:00:00Z", none⟩⟩)
      = .ok ⟨[⟨"L1", 0, none, ⟨"L1", none, ⟨some "2025-01-01T00:00:00Z", none⟩⟩, .received, none⟩],
             ⟨"received", 1, 1, 0⟩,
             [⟨"L1", 0, ⟨"L1", none, ⟨some "2025-01-01T00:00:00Z", none⟩⟩⟩]⟩
    ∧ c2s_webhook (fun _ => some (0 : Nat)) none none
        [⟨"L1", 0, none, ⟨"L1", none, ⟨some "2025-01-01T00:00:00Z", none⟩⟩, .received, none⟩]
        (.Single ⟨"L1", none, ⟨some "2025-01-01T00:00:00Z", none⟩⟩)
      = .ok ⟨[⟨"L1", 0, none, ⟨"L1", none, ⟨some "2025-01-01T00:00:00Z", none⟩⟩, .received, none⟩],
             ⟨"received", 1, 0, 1⟩, []⟩ := by
  have h := C1_idempotent_intake (fun _ => some (0 : Nat)) none none []
    ⟨"L1", none, ⟨some "2025-01-01T00:00:00Z", none⟩⟩ "2025-01-01T00:00:00Z" 0
    rfl rfl rfl rfl
  exact ⟨rfl, rfl, rfl, rfl, by simpa using h.1, by simpa using h.2.2⟩

/-! ## `webhook_handler.rs` — background task status transitions

`mark_webhook_processing` runs `UPDATE webhook_events SET status =
'processing' WHERE lead_id = $1 AND updated_at = $2 AND status =
'received'` and reports the number of affected rows; on zero rows it
only logs a warning and still returns `Ok`.  The spawned task
(`spawn_enrichment_job`) aborts early only when that update itself
returns `Err` (a database error, modeled by an optional injected error);
otherwise it always goes on to run the enrichment workflow and the final
`completed`/`failed` update. -/

/-- The `WHERE` clause of the `received → processing` claim update. -/
def receiptClaimPred {T : Type} [DecidableEq T] (lead_id : String) (updated_at : T)
    (r : WebhookReceipt T) : Bool :=
  decide (r.lead_id = lead_id) && decide (r.updated_at = updated_at)
    && decide (r.status = .received)

/-- `mark_webhook_processing`: the updated table and the number of
affected rows. -/
def mark_webhook_processing {T : Type} [DecidableEq T] (db : List (WebhookReceipt T))
    (lead_id : String) (updated_at : T) : List (WebhookReceipt T) × Nat :=
  (db.map fun r =>
      if receiptClaimPred lead_id updated_at r then { r with status := .processing } else r,
   db.countP (receiptClaimPred lead_id updated_at))

/-- The `WHERE` clause of the `processing → completed/failed` updates. -/
def receiptFinishPred {T : Type} [DecidableEq T] (lead_id : String) (updated_at : T)
    (r : WebhookReceipt T) : Bool :=
  decide (r.lead_id = lead_id) && decide (r.updated_at = updated_at)
    && decide (r.status = .processing)

/-- `mark_webhook_completed`. -/
def mark_webhook_completed {T : Type} [DecidableEq T] (db : List (WebhookReceipt T))
    (lead_id : String) (updated_at : T) : List (WebhookReceipt T) × Nat :=
  (db.map fun r =>
      if receiptFinishPred lead_id updated_at r then { r with status := .completed } else r,
   db.countP (receiptFinishPred lead_id updated_at))

/-- `mark_webhook_failed`. -/
def mark_webhook_failed {T : Type} [DecidableEq T] (db : List (WebhookReceipt T))
    (lead_id : String) (updated_at : T) (error_message : String) :
    List (WebhookReceipt T) × Nat :=
  (db.map fun r =>
      if receiptFinishPred lead_id updated_at r then
        { r with status := .failed, error_message := some error_message }
      else r,
   db.countP (receiptFinishPred lead_id updated_at))

/-- `impl Display for AppError` (`errors.rs`), used for `e.to_string()`. -/
def displayAppError : AppError → String
  | .DatabaseError msg => "Database error: " ++ msg
  | .NotFound msg => "Not found: " ++ msg
  | .BadRequest msg => "Bad request: " ++ msg
  | .ExternalApiError msg => "External API error: " ++ msg
  | .InternalError msg => "Internal error: " ++ msg
  | .Unauthorized msg => "Unauthorized: " ++ msg
  | .WithContext source context => context ++ ": " ++ displayAppError source

/-- Externally visible side effects of one spawned background task
(the whole `enrich_lead_workflow` pipeline — resolution, enrichment,
notification, storage — collapsed to one effect, since only whether it
runs matters here). -/
inductive TaskEffect
  | enrichWorkflowRun (lead_id : String)
deriving DecidableEq

/-- The body of the task spawned by `spawn_enrichment_job`:
`mark_webhook_processing` (whose database error, if any, is injected as
`mark_db_error` and causes the early return), then the workflow (outcome
injected as `workflow`), then the `completed`/`failed` update. -/
def spawn_enrichment_job_run {T : Type} [DecidableEq T] (db : List (WebhookReceipt T))
    (lead_id : String) (updated_at : T) (mark_db_error : Option AppError)
    (workflow : Except AppError Unit) : List (WebhookReceipt T) × List TaskEffect :=
  match mark_db_error with
  | some _ => (db, [])
  | none =>
    let marked := mark_webhook_processing db lead_id updated_at
    match workflow with
    | .ok _ =>
      ((mark_webhook_completed marked.1 lead_id updated_at).1,
       [.enrichWorkflowRun lead_id])
    | .error e =>
      ((mark_webhook_failed marked.1 lead_id updated_at (displayAppError e)).1,
       [.enrichWorkflowRun lead_id])

/-- Counterexample to C3: a receipt already in `processing`; the claim
update affects zero rows, yet the task still runs the whole enrichment
workflow instead of aborting without side effects. -/
theorem C3_counterexample :
    (mark_webhook_processing
        [⟨"L1", (0 : Nat), none, ⟨"L1", none, ⟨some "t", none⟩⟩, .processing, none⟩]
        "L1" 0).2 = 0
    ∧ (spawn_enrichment_job_run
        [⟨"L1", (0 : Nat), none, ⟨"L1", none, ⟨some "t", none⟩⟩, .processing, none⟩]
        "L1" 0 none (.ok ())).2 = [.enrichWorkflowRun "L1"] := by
  exact ⟨rfl, rfl⟩

/-- C3 (amended): the `received → processing` claim is a conditional
update matching only rows still in `received`, so re-claiming after a
successful claim affects zero rows and rows not in `received` are never
transitioned; but a zero-row outcome does NOT abort the task — the
workflow still runs — and the task returns early without side effects
only when the update itself returns a database error. -/
theorem C3_conditional_claim {T : Type} [DecidableEq T] (db : List (WebhookReceipt T))
    (lead_id : String) (updated_at : T) (workflow : Except AppError Unit) (err : AppError) :
    (mark_webhook_processing
        (mark_webhook_processing db lead_id updated_at).1 lead_id updated_at).2 = 0
    ∧ (∀ r ∈ db, r.status ≠ .received →
        r ∈ (mark_webhook_processing db lead_id updated_at).1)
    ∧ (spawn_enrichment_job_run db lead_id updated_at none workflow).2
        = [.enrichWorkflowRun lead_id]
    ∧ (spawn_enrichment_job_run db lead_id updated_at (some err) workflow).2 = [] := by
  refine ⟨?_, ?_, ?_, rfl⟩
  · simp only [mark_webhook_processing, List.countP_eq_zero]
    intro r' hr'
    rw [List.mem_map] at hr'
    obtain ⟨r, _, hmap⟩ := hr'
    by_cases hp : receiptClaimPred lead_id updated_at r
    · rw [if_pos hp] at hmap
      subst hmap
      simp [receiptClaimPred]
    · rw [if_neg hp] at hmap
      subst hmap
      exact hp
  · intro r hr hstat
    simp only [mark_webhook_processing]
    rw [List.mem_map]
    refine ⟨r, hr, ?_⟩
    rw [if_neg]
    simp [receiptClaimPred, hstat]
  · cases workflow <;> rfl

/-- Witness for C3 (amended) at a concrete table. -/
theorem C3_conditional_claim_witness :
    ((⟨"L1", (0 : Nat), none, ⟨"L1", none, ⟨some "t", none⟩⟩, .completed, none⟩ :
        WebhookReceipt Nat)
      ∈ [⟨"L1", (0 : Nat), none, ⟨"L1", none, ⟨some "t", none⟩⟩, .completed, none⟩])
    ∧ (⟨"L1", (0 : Nat), none, ⟨"L1", none, ⟨some "t", none⟩⟩, .completed, none⟩ :
        WebhookReceipt Nat).status ≠ .received
    ∧ (⟨"L1", (0 : Nat), none, ⟨"L1", none, ⟨some "t", none⟩⟩, .completed, none⟩ :
        WebhookReceipt Nat)
      ∈ (mark_webhook_processing
          [⟨"L1", (0 : Nat), none, ⟨"L1", none, ⟨some "t", none⟩⟩, .completed, none⟩]
          "L1" 0).1
    ∧ (mark_webhook_processing
        (mark_webhook_processing
          [⟨"L1", (0 : Nat), none, ⟨"L1", none, ⟨some "t", none⟩⟩, .completed, none⟩]
          "L1" 0).1 "L1" 0).2 = 0 := by
  have h := C3_conditional_claim
    [⟨"L1", (0 : Nat), none, ⟨"L1", none, ⟨some "t", none⟩⟩, .completed, none⟩]
    "L1" 0 (.ok ()) (.InternalError "x")
  exact ⟨by decide, by decide,
    h.2.1 _ (by decide) (by decide), h.1⟩

/-! ## `webhook_handler.rs` — secret validation (C4) -/

theorem nat_or_eq_zero {a b : Nat} : a ||| b = 0 ↔ a = 0 ∧ b = 0 := by
  constructor
  · intro h
    have ha : ∀ i, a.testBit i = false := by
      intro i
      have hz := congrArg (fun n => Nat.testBit n i) h
      simp only [Nat.testBit_lor, Nat.zero_testBit, Bool.or_eq_false_iff] at hz
      exact hz.1
    have hb : ∀ i, b.testBit i = false := by
      intro i
      have hz := congrArg (fun n => Nat.testBit n i) h
      simp only [Nat.testBit_lor, Nat.zero_testBit, Bool.or_eq_false_iff] at hz
      exact hz.2
    exact ⟨Nat.eq_of_testBit_eq fun i => by simp [ha i],
           Nat.eq_of_testBit_eq fun i => by simp [hb i]⟩
  · rintro ⟨rfl, rfl⟩; rfl

theorem orXorFold_eq_zero (l : List (Nat × Nat)) :
    ∀ acc, (l.foldl (fun acc p => acc ||| (p.1 ^^^ p.2)) acc = 0
      ↔ acc = 0 ∧ ∀ p ∈ l, p.1 = p.2) := by
  induction l with
  | nil => simp
  | cons hd tl ih =>
    intro acc
    simp only [List.foldl_cons, List.mem_cons]
    rw [ih]
    constructor
    · rintro ⟨hz, hall⟩
      obtain ⟨h0, hx⟩ := nat_or_eq_zero.mp hz
      refine ⟨h0, fun p hp => ?_⟩
      rcases hp with he | hmem
      · exact he ▸ Nat.xor_eq_zero.mp hx
      · exact hall p hmem
    · rintro ⟨rfl, hall⟩
      have hx : hd.1 ^^^ hd.2 = 0 := Nat.xor_eq_zero.mpr (hall hd (Or.inl rfl))
      exact ⟨by simp [hx], fun p hp => hall p (Or.inr hp)⟩

theorem zip_pointwise_eq : ∀ (l₁ l₂ : List Nat), l₁.length = l₂.length →
    (∀ p ∈ l₁.zip l₂, p.1 = p.2) → l₁ = l₂ := by
  intro l₁
  induction l₁ with
  | nil =>
    intro l₂ hlen _
    cases l₂ with
    | nil => rfl
    | cons _ _ => simp at hlen
  | cons a t ih =>
    intro l₂ hlen hall
    cases l₂ with
    | nil => simp at hlen
    | cons b t' =>
      have hab : a = b := hall (a, b) (by simp)
      have ht : t = t' := ih t' (by simpa using hlen)
        fun p hp => hall p (by simp [List.zip_cons_cons, hp])
      rw [hab, ht]

theorem mem_zip_self_eq : ∀ (l : List Nat) (p : Nat × Nat), p ∈ l.zip l → p.1 = p.2 := by
  intro l
  induction l with
  | nil => intro p hp; simp at hp
  | cons a t ih =>
    intro p hp
    rcases (by simpa [List.zip_cons_cons] using hp : p = (a, a) ∨ p ∈ t.zip t) with rfl | hmem
    · rfl
    · exact ih p hmem

/-- `constant_time_compare` agrees with string equality (the or-of-xors
fold is zero exactly when the byte sequences agree pointwise, and UTF-8
encoding is injective). -/
theorem constant_time_compare_iff (a b : String) :
    constant_time_compare a b = true ↔ a = b := by
  constructor
  · intro h
    unfold constant_time_compare at h
    by_cases hlen : (utf8Bytes a).length ≠ (utf8Bytes b).length
    · rw [if_pos hlen] at h
      exact absurd h (by simp)
    · rw [if_neg hlen] at h
      rw [not_not] at hlen
      have hz := (beq_iff_eq ..).mp h
      have hpt := ((orXorFold_eq_zero _ 0).mp hz).2
      exact utf8Bytes_injective (zip_pointwise_eq _ _ hlen hpt)
  · rintro rfl
    unfold constant_time_compare
    rw [if_neg (by simp)]
    refine (beq_iff_eq ..).mpr ?_
    exact (orXorFold_eq_zero _ 0).mpr ⟨rfl, mem_zip_self_eq _⟩

/-- Counterexample to C4: with a secret configured and the token header
MISSING, `validate_webhook_secret` accepts the request, and the whole
webhook call persists the event, counts it processed and spawns a job —
the claim says a missing token must be rejected with Unauthorized and
nothing persisted or processed. -/
theorem C4_counterexample :
    validate_webhook_secret (some "s3cret") none = .ok ()
    ∧ c2s_webhook (fun _ => some (0 : Nat)) (some "s3cret") none []
        (.Single ⟨"L1", none, ⟨some "t", none⟩⟩)
      = .ok ⟨[⟨"L1", 0, none, ⟨"L1", none, ⟨some "t", none⟩⟩, .received, none⟩],
             ⟨"received", 1, 1, 0⟩, [⟨"L1", 0, ⟨"L1", none, ⟨some "t", none⟩⟩⟩]⟩ := by
  exact ⟨rfl, rfl⟩

/-- C4 (amended): when a secret is configured and the request PROVIDES a
token that does not equal the secret, the constant-time comparison fails
and the webhook call is rejected with `Unauthorized` before any event is
examined, persisted or processed (a missing token, however, is
accepted — C2S cannot send custom headers). -/
theorem C4_wrong_token_rejected {T : Type} [DecidableEq T]
    (parse_timestamp : String → Option T) (secret token : String)
    (db : List (WebhookReceipt T)) (payload : WebhookPayload)
    (h : token ≠ secret) :
    validate_webhook_secret (some secret) (some token)
      = .error (.Unauthorized "Invalid webhook token")
    ∧ c2s_webhook parse_timestamp (some secret) (some token) db payload
      = .error (.Unauthorized "Invalid webhook token") := by
  have hct : constant_time_compare token secret = false := by
    cases hc : constant_time_compare token secret with
    | false => rfl
    | true => exact absurd ((constant_time_compare_iff token secret).mp hc) h
  have hval : validate_webhook_secret (some secret) (some token)
      = .error (.Unauthorized "Invalid webhook token") := by
    simp [validate_webhook_secret, hct]
  exact ⟨hval, by unfold c2s_webhook; rw [hval]⟩

/-- Witness for C4 (amended) at a concrete wrong token. -/
theorem C4_wrong_token_rejected_witness :
    ("wrong" : String) ≠ "s3cret"
    ∧ validate_webhook_secret (some "s3cret") (some "wrong")
        = .error (.Unauthorized "Invalid webhook token")
    ∧ c2s_webhook (fun _ => some (0 : Nat)) (some "s3cret") (some "wrong") []
        (.Single ⟨"L1", none, ⟨some "t", none⟩⟩)
        = .error (.Unauthorized "Invalid webhook token") := by
  have h := C4_wrong_token_rejected (fun _ => some (0 : Nat)) "s3cret" "wrong" []
    (.Single ⟨"L1", none, ⟨some "t", none⟩⟩) (by decide)
  exact ⟨by decide, h.1, h.2⟩

/-! ## `circuit_breaker.rs` — ResilientCaller -/

/-- The breaker configuration as built by `create_db_circuit_breaker`. -/
structure CircuitBreakerSettings where
  threshold : Nat
  initialDelaySecs : Nat
  maxDelaySecs : Nat
deriving DecidableEq

/-- `create_db_circuit_breaker` (`circuit_breaker.rs`):
`consecutive_failures(5, exponential(10s, 60s))`. -/
def create_db_circuit_breaker : CircuitBreakerSettings :=
  ⟨5, 10, 60⟩

/-- Breaker state.  `closed` counts consecutive failures; `opened`
records the current backoff step and when the breaker opened (half-open
is the `opened` state once the backoff window has elapsed). -/
inductive BreakerState
  | closed (consecutiveFailures : Nat)
  | opened (backoffStep : Nat) (openedAt : Nat)
deriving DecidableEq

/-- Outcome reported for one call through the breaker. -/
inductive CallOutcome
  | succeeded
  | failed
  | rejected
deriving DecidableEq

/-- Record of one call: whether the wrapped operation was attempted,
the outcome, and the next breaker state. -/
structure CallRecord where
  attempted : Bool
  outcome : CallOutcome
  next : BreakerState
deriving DecidableEq

/-- Modelled from the spec: the state machine of the `failsafe` crate's
`consecutive_failures` policy with exponential backoff, which lives
outside this repository (only its configuration,
`create_db_circuit_breaker`, is source).  The spec: Closed→Open after
`threshold` consecutive failures; Open short-circuits calls inside an
exponential backoff window starting at `initialDelaySecs` and capped at
`maxDelaySecs`; after the window one probe is allowed — success closes
the breaker and resets the count, failure reopens it with the next,
escalating window. -/
def backoffWindow (cfg : CircuitBreakerSettings) (step : Nat) : Nat :=
  min (cfg.initialDelaySecs * 2 ^ step) cfg.maxDelaySecs

/-- Modelled from the spec: one call through the breaker at time `now`,
where `opSucceeds` tells whether the wrapped operation would succeed if
attempted. -/
def breakerCall (cfg : CircuitBreakerSettings) (st : BreakerState) (now : Nat)
    (opSucceeds : Bool) : CallRecord :=
  match st with
  | .closed failures =>
    if opSucceeds then ⟨true, .succeeded, .closed 0⟩
    else if failures + 1 ≥ cfg.threshold then ⟨true, .failed, .opened 0 now⟩
    else ⟨true, .failed, .closed (failures + 1)⟩
  | .opened step openedAt =>
    if now < openedAt + backoffWindow cfg step then
      ⟨false, .rejected, .opened step openedAt⟩
    else if opSucceeds then ⟨true, .succeeded, .closed 0⟩
    else ⟨true, .failed, .opened (step + 1) now⟩

/-- Runs a sequence of calls (time, would-succeed) through the breaker. -/
def runCalls (cfg : CircuitBreakerSettings) (st : BreakerState) :
    List (Nat × Bool) → BreakerState
  | [] => st
  | (now, ok) :: rest => runCalls cfg (breakerCall cfg st now ok).next rest

/-- C7: with the configuration of `create_db_circuit_breaker`, five
consecutive failures open the breaker; a sixth call inside the first
10-second window is rejected without the operation being attempted even
though it would succeed; the backoff window starts at 10s, is capped at
60s and escalates monotonically; once the window has elapsed, a
successful probe closes the breaker and resets the failure count, and a
failed probe reopens it at the next backoff step. -/
theorem C7_circuit_breaker (t t2 : Nat) (h6 : t2 < t + 10) :
    runCalls create_db_circuit_breaker (.closed 0) (List.replicate 5 (t, false))
      = .opened 0 t
    ∧ breakerCall create_db_circuit_breaker (.opened 0 t) t2 true
        = ⟨false, .rejected, .opened 0 t⟩
    ∧ backoffWindow create_db_circuit_breaker 0 = 10
    ∧ (∀ k, backoffWindow create_db_circuit_breaker k ≤ 60)
    ∧ (∀ k, backoffWindow create_db_circuit_breaker k
        ≤ backoffWindow create_db_circuit_breaker (k + 1))
    ∧ (∀ k openedAt now, openedAt + backoffWindow create_db_circuit_breaker k ≤ now →
        breakerCall create_db_circuit_breaker (.opened k openedAt) now true
          = ⟨true, .succeeded, .closed 0⟩)
    ∧ (∀ k openedAt now, openedAt + backoffWindow create_db_circuit_breaker k ≤ now →
        breakerCall create_db_circuit_breaker (.opened k openedAt) now false
          = ⟨true, .failed, .opened (k + 1) now⟩) := by
  have hw0 : backoffWindow create_db_circuit_breaker 0 = 10 := by decide
  refine ⟨?_, ?_, hw0, ?_, ?_, ?_, ?_⟩
  · simp +decide [runCalls, breakerCall, create_db_circuit_breaker, List.replicate]
  · simp only [breakerCall, hw0]
    rw [if_pos h6]
  · intro k
    exact min_le_right _ _
  · intro k
    simp only [backoffWindow, create_db_circuit_breaker]
    refine min_le_min ?_ le_rfl
    have h2 : (2 : Nat) ^ k ≤ 2 ^ (k + 1) := Nat.pow_le_pow_right (by omega) (by omega)
    omega
  · intro k openedAt now hk
    simp only [breakerCall]
    rw [if_neg (by omega)]
    simp
  · intro k openedAt now hk
    simp only [breakerCall]
    rw [if_neg (by omega)]
    rfl

/-- Witness for C7 at concrete times. -/
theorem C7_circuit_breaker_witness :
    ((5 : Nat) < 0 + 10)
    ∧ runCalls create_db_circuit_breaker (.closed 0) (List.replicate 5 (0, false))
        = .opened 0 0
    ∧ breakerCall create_db_circuit_breaker (.opened 0 0) 5 true
        = ⟨false, .rejected, .opened 0 0⟩
    ∧ breakerCall create_db_circuit_breaker (.opened 0 0) 10 true
        = ⟨true, .succeeded, .closed 0⟩
    ∧ breakerCall create_db_circuit_breaker (.opened 0 0) 10 false
        = ⟨true, .failed, .opened 1 10⟩ := by
  have h := C7_circuit_breaker 0 5 (by decide)
  exact ⟨by decide, h.1, h.2.1,
    h.2.2.2.2.2.1 0 0 10 (by decide), h.2.2.2.2.2.2 0 0 10 (by decide)⟩

end C2S
